import Mathlib

/-!
Verification of the DNS resolution engine of `dns-go-yaml`
(main Go file: `handleRequest`, `addRecord`, `loadZoneData`, `parseTTL`).

The Go code is shallowly embedded: the global record table `dnsRecords`
becomes an explicit association list, the miekg/dns message type becomes a
Lean structure with the fields the program touches, and the upstream
exchange (`dns.Client.Exchange`) becomes an oracle
`fwd : String → Msg → Option Msg` where `none` models a returned error.
-/

namespace DnsGo

/-! ### String normalization (Go `strings` helpers as used by the program) -/

/-- Lowercase a single character. Models `strings.ToLower` per character for
the ASCII range, the only range exercised by domain names in this program. -/
def toLowerChar (c : Char) : Char :=
  if 'A' ≤ c ∧ c ≤ 'Z' then Char.ofNat (c.toNat + 32) else c

/-- Models `strings.ToLower` on a whole string (ASCII range). -/
def strToLower (s : String) : String :=
  ⟨s.data.map toLowerChar⟩

/-- Models `strings.HasSuffix(s, ".")`: the last character is a dot. -/
def hasTrailingDot (s : String) : Bool :=
  s.data.getLast? = some '.'

/-- Models the normalization step `if !strings.HasSuffix(name, ".") { name += "." }`
used both in `addRecord` and in `handleRequest`. -/
def ensureTrailingDot (s : String) : String :=
  if hasTrailingDot s then s else s ++ "."

/-- Full query/owner-name normalization of the program: append the trailing
dot if missing, then case-fold (`strings.ToLower`). In `handleRequest` this
is applied to the question name; in `addRecord` the same composition
produces the store key. -/
def normalizeName (s : String) : String :=
  strToLower (ensureTrailingDot s)

/-! ### IPv4 and TTL parsing (library calls made by the program) -/

/-- Numeric value of a digit list, most significant first. -/
def digitsVal (cs : List Char) : Nat :=
  cs.foldl (fun acc c => acc * 10 + (c.toNat - 48)) 0

/-- Splits a character list at every dot, keeping empty groups. -/
def splitOnDot : List Char → List (List Char)
  | [] => [[]]
  | c :: rest =>
    let r := splitOnDot rest
    if c = '.' then [] :: r
    else
      match r with
      | g :: gs => (c :: g) :: gs
      | [] => [[c]]

/-- One dotted-quad component: 1–3 decimal digits, no redundant leading
zero, value at most 255. -/
def parseIPv4Part (cs : List Char) : Option Nat :=
  if cs = [] then none
  else if ¬ cs.all Char.isDigit then none
  else if cs.length > 1 ∧ cs.headD ' ' = '0' then none
  else if digitsVal cs ≤ 255 then some (digitsVal cs) else none

/-- Models netip's `parseIPv4` on a character list: exactly four
dot-separated decimal fields, each passing `parseIPv4Part`. -/
def parseIPv4Fields (cs : List Char) : Option (Nat × Nat × Nat × Nat) :=
  match splitOnDot cs with
  | [p1, p2, p3, p4] =>
    match parseIPv4Part p1, parseIPv4Part p2, parseIPv4Part p3, parseIPv4Part p4 with
    | some a, some b, some c, some d => some (a, b, c, d)
    | _, _, _, _ => none
  | _ => none

/-- The 16-byte form of an IPv4 address (its IPv4-mapped IPv6 bytes), which
is what `net.ParseIP` returns for dotted-quad input (`Addr.As16`). -/
def v4To16 (a b c d : Nat) : List Nat :=
  [0, 0, 0, 0, 0, 0, 0, 0, 0, 0, 255, 255, a, b, c, d]

/-- Value of one hexadecimal digit, when `c` is one. -/
def hexDigitVal (c : Char) : Option Nat :=
  if '0' ≤ c ∧ c ≤ '9' then some (c.toNat - 48)
  else if 'a' ≤ c ∧ c ≤ 'f' then some (c.toNat - 87)
  else if 'A' ≤ c ∧ c ≤ 'F' then some (c.toNat - 55)
  else none

/-- Splits off the maximal leading run of hexadecimal digits. -/
def takeHex : List Char → List Char × List Char
  | [] => ([], [])
  | c :: rest =>
    match hexDigitVal c with
    | some _ =>
      let p := takeHex rest
      (c :: p.1, p.2)
    | none => ([], c :: rest)

/-- Numeric value of a hexadecimal digit run, most significant first. -/
def hexVal (cs : List Char) : Nat :=
  cs.foldl (fun acc c => acc * 16 + (hexDigitVal c).getD 0) 0

/-- The final step of netip's `parseIPv6`: when fewer than 16 bytes were
parsed, an `::` ellipsis must be present and is expanded with zero bytes at
its position; when all 16 bytes were parsed, an ellipsis is an error (it
must stand for at least one zero group). -/
def expandEllipsis (acc : List Nat) (ellipsis : Option Nat) : Option (List Nat) :=
  if acc.length < 16 then
    match ellipsis with
    | none => none
    | some e => some (acc.take e ++ List.replicate (16 - acc.length) 0 ++ acc.drop e)
  else
    match ellipsis with
    | none => some acc
    | some _ => none

/-- The group loop of netip's `parseIPv6`: read a group of 1–4 hex digits;
a following dot switches to a trailing dotted-quad (permitted only after an
ellipsis or at byte offset 12, with room for 4 bytes, consuming the whole
remainder); otherwise store the 16-bit chunk and continue after a `:`,
recording a single `::` ellipsis position on a double colon. The loop runs
only while fewer than 16 bytes are placed and each iteration consumes at
least one character, so the character count bounds the iterations; `fuel`
is initialized above that bound by the caller and makes the recursion
structural. -/
def parseIPv6Core : Nat → List Char → List Nat → Option Nat →
    Option (List Nat × Option Nat)
  | 0, _, _, _ => none
  | fuel + 1, cs, acc, ellipsis =>
    match takeHex cs with
    | (digits, rest) =>
      if digits.length = 0 then none
      else if digits.length > 4 then none
      else
        match rest with
        | '.' :: _ =>
          if (ellipsis ≠ none ∨ acc.length = 12) ∧ acc.length + 4 ≤ 16 then
            match parseIPv4Fields cs with
            | some (a, b, c, d) => some (acc ++ [a, b, c, d], ellipsis)
            | none => none
          else none
        | [] => some (acc ++ [hexVal digits / 256, hexVal digits % 256], ellipsis)
        | ':' :: rest2 =>
          let acc2 := acc ++ [hexVal digits / 256, hexVal digits % 256]
          match rest2 with
          | [] => none
          | ':' :: rest3 =>
            if ellipsis ≠ none then none
            else
              match rest3 with
              | [] => some (acc2, some acc2.length)
              | _ =>
                if acc2.length ≥ 16 then none
                else parseIPv6Core fuel rest3 acc2 (some acc2.length)
          | _ =>
            if acc2.length ≥ 16 then none
            else parseIPv6Core fuel rest2 acc2 ellipsis
        | _ => none

/-- Models netip's `parseIPv6` without a zone (the caller rejects any `%`):
an optional leading `::` (possibly alone), the group loop, then ellipsis
expansion. -/
def parseIPv6Chars (cs : List Char) : Option (List Nat) :=
  match cs with
  | ':' :: ':' :: rest =>
    match rest with
    | [] => some (List.replicate 16 0)
    | _ =>
      match parseIPv6Core (rest.length + 1) rest [] (some 0) with
      | some (acc, ell) => expandEllipsis acc ell
      | none => none
  | _ =>
    match parseIPv6Core (cs.length + 1) cs [] none with
    | some (acc, ell) => expandEllipsis acc ell
    | none => none

/-- The format dispatch of `netip.ParseAddr`: the first `.`, `:` or `%`
decides how the literal is parsed. -/
def ipDispatch : List Char → Option Char
  | [] => none
  | c :: rest => if c = '.' ∨ c = ':' ∨ c = '%' then some c else ipDispatch rest

/-- Models the library call `net.ParseIP(data)` (Go 1.23: `netip.ParseAddr`
with zoned addresses rejected) as the 16-byte address it returns: a literal
whose first structural character is a dot parses as an IPv4 dotted quad and
is returned in its 4-in-6 mapped form, a literal whose first structural
character is a colon parses as an IPv6 address, anything with a `%` zone
and anything else yields `none`, modelling the `nil` result. -/
def parseIP (s : String) : Option (List Nat) :=
  if s.data.contains '%' then none
  else
    match ipDispatch s.data with
    | some '.' =>
      match parseIPv4Fields s.data with
      | some (a, b, c, d) => some (v4To16 a b c d)
      | none => none
    | some ':' => parseIPv6Chars s.data
    | _ => none

/-- Models `parseTTL`, i.e. `strconv.ParseUint(ttlStr, 10, 32)`: a nonempty
all-digit string whose value fits in 32 bits; anything else is an error
(`none`), which makes the CSV loader skip the row. -/
def parseTTL (s : String) : Option Nat :=
  if s.data ≠ [] ∧ s.data.all Char.isDigit ∧ digitsVal s.data < 2 ^ 32 then
    some (digitsVal s.data)
  else none

/-! ### Records and the record store -/

/-- DNS type and class codes used by the program (miekg/dns constants). -/
def typeA : Nat := 1

/-- Code of the CNAME record type. -/
def typeCNAME : Nat := 5

/-- Code of the AAAA record type (appears only in queries here). -/
def typeAAAA : Nat := 28

/-- Code of the IN class. -/
def classINET : Nat := 1

/-- Typed record data: an `A` body holds the `net.ParseIP` result as the
16-byte address (`none` for Go's `nil` invalid-address marker), a `CNAME`
body holds the target verbatim. -/
inductive RData where
  | a (addr : Option (List Nat))
  | cname (target : String)
deriving DecidableEq, Repr

/-- A resource record as the program builds it (`dns.A` / `dns.CNAME` with
their shared `dns.RR_Header`). -/
structure RR where
  name : String
  rtype : Nat
  rrclass : Nat
  ttl : Nat
  rdata : RData
deriving DecidableEq, Repr

/-- A raw zone entry (`Record` struct of the program): one YAML node or CSV
data row. -/
structure Record where
  name : String
  «type» : String
  ttl : Nat
  data : String
deriving DecidableEq, Repr

/-- The record table `dnsRecords : map[string][]dns.RR`, embedded as an
association list from canonical owner name to the record sequence. -/
abbrev Store := List (String × List RR)

/-- Map indexing `dnsRecords[key]` together with its `ok` flag:
`some records` when the key is present, `none` otherwise. -/
def findRecords : Store → String → Option (List RR)
  | [], _ => none
  | (k, v) :: rest, key => if k = key then some v else findRecords rest key

/-- Models `dnsRecords[key] = append(dnsRecords[key], rr)`: append to the
sequence under `key`, creating it when absent. -/
def appendRecord : Store → String → RR → Store
  | [], key, rr => [(key, [rr])]
  | (k, v) :: rest, key, rr =>
    if k = key then (k, v ++ [rr]) :: rest
    else (k, v) :: appendRecord rest key rr

/-- The typed record `addRecord` constructs from an entry after appending
the trailing dot: the `switch record.Type` of the source; `none` for an
unsupported type, where the source logs and returns without storing. -/
def mkRR (record : Record) : Option RR :=
  let name := ensureTrailingDot record.name
  match record.«type» with
  | "A" => some ⟨name, typeA, classINET, record.ttl, .a (parseIP record.data)⟩
  | "CNAME" => some ⟨name, typeCNAME, classINET, record.ttl, .cname record.data⟩
  | _ => none

/-- Models `addRecord`: normalize the owner name, build the typed record,
and append it under the case-folded key; unsupported types store nothing. -/
def addRecord (st : Store) (record : Record) : Store :=
  match mkRR record with
  | some rr => appendRecord st (strToLower (ensureTrailingDot record.name)) rr
  | none => st

/-- The store built from a sequence of raw entries: the
`for _, record := range config.Records { addRecord(record) }` loop of
`loadZoneData` (YAML branch), starting from the fresh empty map. -/
def buildStore (records : List Record) : Store :=
  List.foldl addRecord ([] : Store) records

/-- Interpretation of one CSV data row inside the `case "csv"` loop of
`loadZoneData`: a row keeps only the shape `[name, type, ttl, data]` and a
TTL accepted by `parseTTL`; otherwise the loop `continue`s (skips it). -/
def rowToRecord (row : List String) : Option Record :=
  match row with
  | [name, rtype, ttlStr, data] =>
    match parseTTL ttlStr with
    | some ttl => some ⟨name, rtype, ttl, data⟩
    | none => none
  | _ => none

/-- The body of the CSV loading loop applied to an accumulating store. -/
def csvStep (st : Store) (row : List String) : Store :=
  match rowToRecord row with
  | some rec => addRecord st rec
  | none => st

/-- Models `csv.Reader.ReadAll` at the level of already-split rows. The
source sets only `TrimLeadingSpace` and `LazyQuotes`, leaving the default
`FieldsPerRecord = 0` behavior active: the first record fixes the expected
field count and any later record with a different count makes the read
fail with `ErrFieldCount` (Go wraps the offending line number into the
error text, abstracted to a fixed message here). -/
def readAllCSV (rows : List (List String)) : Except String (List (List String)) :=
  match rows with
  | [] => .ok []
  | first :: rest =>
    if rest.all (fun row => row.length = first.length) then .ok (first :: rest)
    else .error "wrong number of fields"

/-- Models the `case "csv"` branch of `loadZoneData`, starting from the
split rows: a failed `ReadAll` fails the whole load (the error propagates
through `loadConfig` to a fatal exit in `main`); a file with at most one
row (header only) is an empty zone with no error; otherwise the header is
skipped and every data row is processed by `csvStep`. The in-loop
field-count skip inside `csvStep` is reachable only when the header row
itself does not have 4 fields, since `readAllCSV` pins every row to the
header's count. -/
def loadZoneDataCSV (rows : List (List String)) : Except String Store :=
  match readAllCSV rows with
  | .error e => .error e
  | .ok records =>
    if records.length ≤ 1 then .ok ([] : Store)
    else .ok (List.foldl csvStep ([] : Store) (records.drop 1))

/-! ### DNS messages (the miekg/dns fields the program touches) -/

/-- One question of a query message. -/
structure Question where
  name : String
  qtype : Nat
  qclass : Nat
deriving DecidableEq, Repr

/-- A DNS message: header fields, question, and record sections, as
manipulated by `handleRequest`, `Msg.SetReply`, `Msg.SetRcode` and
`Msg.CopyTo`. -/
structure Msg where
  id : Nat
  response : Bool
  opcode : Nat
  authoritative : Bool
  truncated : Bool
  recursionDesired : Bool
  recursionAvailable : Bool
  checkingDisabled : Bool
  rcode : Nat
  question : List Question
  answer : List RR
  ns : List RR
  extra : List RR
deriving DecidableEq, Repr

/-- Opcode of a standard query. -/
def opcodeQuery : Nat := 0

/-- Rcode of a successful response (NOERROR). -/
def rcodeSuccess : Nat := 0

/-- Rcode of a name error (NXDOMAIN), `dns.RcodeNameError`. -/
def rcodeNameError : Nat := 3

/-- The zero message `new(dns.Msg)` allocates. -/
def emptyMsg : Msg :=
  ⟨0, false, 0, false, false, false, false, false, 0, [], [], [], []⟩

/-- Models miekg/dns `(*Msg).SetReply(request)` (v1.1.63): stamp id,
response bit and opcode from the request, copy the RD and CD bits for
query-opcode requests, reset the rcode to success, and replace the question
section by the request's first question. -/
def setReply (m request : Msg) : Msg :=
  let m1 := { m with id := request.id, response := true, opcode := request.opcode }
  let m2 :=
    if m1.opcode = opcodeQuery then
      { m1 with recursionDesired := request.recursionDesired,
                checkingDisabled := request.checkingDisabled }
    else m1
  let m3 := { m2 with rcode := rcodeSuccess }
  match request.question with
  | q :: _ => { m3 with question := [q] }
  | [] => m3

/-- Models miekg/dns `(*Msg).SetRcode(request, rcode)`: `SetReply` followed
by overwriting the rcode. -/
def setRcode (m request : Msg) (rcode : Nat) : Msg :=
  { setReply m request with rcode := rcode }

/-! ### The request handler -/

/-- The forwarding configuration the handler reads: the globals
`enableForwarding` and `forwarder` loaded from `settings.conf`. -/
structure ServerConfig where
  enableForwarding : Bool
  forwarder : String
deriving DecidableEq, Repr

/-- The upstream exchange oracle: `fwd addr r` models
`c.Exchange(r, addr)`; `some resp` is a successful exchange, `none` an
error (`err != nil`). -/
abbrev Forwarder := String → Msg → Option Msg

/-- Result of processing one question of the loop in `handleRequest`:
either the loop continues with an updated reply message, or the handler has
already written a message and returned (`w.WriteMsg(m); return`). -/
inductive StepOut where
  | cont (m : Msg)
  | sent (m : Msg)
deriving DecidableEq, Repr

/-- The body of the `for _, question := range r.Question` loop of
`handleRequest`, acting on the reply `m` under construction: normalize the
question name, answer locally when the key exists (the source appends the
records only under its `len(records) > 0` log guard, but appending an empty
sequence is the identity, so the guard is kept faithfully), otherwise
forward when enabled and configured — a successful exchange overwrites `m`
with the upstream response (`resp.CopyTo(m)`), re-stamps it as a reply
(`m.SetReply(r)`) and sends it immediately; otherwise fall through to
`m.SetRcode(r, dns.RcodeNameError)`. -/
def handleQuestion (cfg : ServerConfig) (fwd : Forwarder) (store : Store)
    (r m : Msg) (question : Question) : StepOut :=
  let queryName := normalizeName question.name
  match findRecords store queryName with
  | some records =>
    if records.length > 0 then .cont { m with answer := m.answer ++ records }
    else .cont m
  | none =>
    if cfg.enableForwarding ∧ cfg.forwarder ≠ "" then
      match fwd (cfg.forwarder ++ ":53") r with
      | some resp => .sent (setReply resp r)
      | none => .cont (setRcode m r rcodeNameError)
    else .cont (setRcode m r rcodeNameError)

/-- The question loop of `handleRequest`: run `handleQuestion` over the
questions in order, stopping as soon as one of them sends a message. -/
def runQuestions (cfg : ServerConfig) (fwd : Forwarder) (store : Store)
    (r : Msg) : List Question → Msg → StepOut
  | [], m => .cont m
  | q :: qs, m =>
    match handleQuestion cfg fwd store r m q with
    | .sent m1 => .sent m1
    | .cont m1 => runQuestions cfg fwd store r qs m1

/-- Models `handleRequest`: build the initial reply with
`m := new(dns.Msg); m.SetReply(r)`, run the question loop, and return the
single message written to the client (either the early forwarded write or
the final `w.WriteMsg(m)`). -/
def handleRequest (cfg : ServerConfig) (fwd : Forwarder) (store : Store)
    (r : Msg) : Msg :=
  match runQuestions cfg fwd store r r.question (setReply emptyMsg r) with
  | .sent m => m
  | .cont m => m

/-- The per-question resolution outcome named by the specification:
authoritative local answer, relayed upstream response, or negative answer
(NXDOMAIN). `emptyLocal` is the source's present-but-empty branch, which
appends nothing and produces no negative answer; store construction never
creates it. -/
inductive ResolutionOutcome where
  | authoritative (records : List RR)
  | emptyLocal
  | forwarded (resp : Msg)
  | negativeAnswer
deriving DecidableEq, Repr

/-- The decision `handleQuestion` takes on one question, read as a
`ResolutionOutcome`: the same branch structure with the message bookkeeping
stripped. -/
def resolve (cfg : ServerConfig) (fwd : Forwarder) (store : Store)
    (r : Msg) (question : Question) : ResolutionOutcome :=
  match findRecords store (normalizeName question.name) with
  | some records =>
    if records.length > 0 then .authoritative records else .emptyLocal
  | none =>
    if cfg.enableForwarding ∧ cfg.forwarder ≠ "" then
      match fwd (cfg.forwarder ++ ":53") r with
      | some resp => .forwarded resp
      | none => .negativeAnswer
    else .negativeAnswer

/-! ### Store invariants and helper lemmas -/

/-- Every record sequence held by the store is nonempty: `addRecord` only
ever creates a key together with a first record. -/
def storeWF (st : Store) : Prop := ∀ p ∈ st, p.2 ≠ ([] : List RR)

theorem findRecords_mem (st : Store) (k : String) (v : List RR)
    (h : findRecords st k = some v) : (k, v) ∈ st := by
  induction st with
  | nil => simp [findRecords] at h
  | cons hd tl ih =>
    obtain ⟨k0, v0⟩ := hd
    simp only [findRecords] at h
    split at h
    · next heq =>
      obtain rfl : v0 = v := by injection h
      subst heq
      exact List.mem_cons_self _ _
    · exact List.mem_cons_of_mem _ (ih h)

theorem storeWF_appendRecord (st : Store) (key : String) (rr : RR) :
    storeWF st → storeWF (appendRecord st key rr) := by
  induction st with
  | nil =>
    intro _ p hp
    simp only [appendRecord, List.mem_singleton] at hp
    subst hp
    simp
  | cons hd tl ih =>
    obtain ⟨k0, v0⟩ := hd
    intro h p hp
    have h0 : v0 ≠ [] := h (k0, v0) (List.mem_cons_self _ _)
    have htl : storeWF tl := fun q hq => h q (List.mem_cons_of_mem _ hq)
    simp only [appendRecord] at hp
    split at hp
    · rcases List.mem_cons.mp hp with h1 | h1
      · subst h1
        simp
      · exact htl _ h1
    · rcases List.mem_cons.mp hp with h1 | h1
      · subst h1
        exact h0
      · exact ih htl _ h1

theorem storeWF_addRecord (st : Store) (rec : Record) :
    storeWF st → storeWF (addRecord st rec) := by
  intro h
  unfold addRecord
  split
  · exact storeWF_appendRecord _ _ _ h
  · exact h

theorem storeWF_foldl (recs : List Record) :
    ∀ st : Store, storeWF st → storeWF (List.foldl addRecord st recs) := by
  induction recs with
  | nil =>
    intro st h
    simpa using h
  | cons r rs ih =>
    intro st h
    simpa [List.foldl] using ih _ (storeWF_addRecord st r h)

theorem storeWF_buildStore (recs : List Record) : storeWF (buildStore recs) :=
  storeWF_foldl recs [] (by intro p hp; simp at hp)

theorem buildStore_find_ne_nil (entries : List Record) (k : String) (v : List RR)
    (h : findRecords (buildStore entries) k = some v) : v ≠ [] :=
  storeWF_buildStore entries (k, v) (findRecords_mem _ _ _ h)

theorem runQuestions_append (cfg : ServerConfig) (fwd : Forwarder) (store : Store)
    (r : Msg) (xs ys : List Question) (m : Msg) :
    runQuestions cfg fwd store r (xs ++ ys) m =
      match runQuestions cfg fwd store r xs m with
      | .sent m1 => .sent m1
      | .cont m1 => runQuestions cfg fwd store r ys m1 := by
  induction xs generalizing m with
  | nil => simp [runQuestions]
  | cons q qs ih =>
    simp only [List.cons_append, runQuestions]
    cases handleQuestion cfg fwd store r m q with
    | sent m1 => rfl
    | cont m1 => exact ih m1

theorem setReply_answer (m r : Msg) : (setReply m r).answer = m.answer := by
  unfold setReply
  cases r.question <;> dsimp <;> (try split) <;> (try rfl)

theorem setRcode_answer (m r : Msg) (c : Nat) : (setRcode m r c).answer = m.answer := by
  unfold setRcode
  exact setReply_answer m r

theorem setRcode_rcode (m r : Msg) (c : Nat) : (setRcode m r c).rcode = c := rfl

theorem setReply_rcode (m r : Msg) : (setReply m r).rcode = rcodeSuccess := by
  unfold setReply
  cases r.question <;> dsimp

theorem setReply_id (m r : Msg) : (setReply m r).id = r.id := by
  unfold setReply
  cases r.question <;> dsimp <;> (try split) <;> (try rfl)

theorem setReply_response (m r : Msg) : (setReply m r).response = true := by
  unfold setReply
  cases r.question <;> dsimp <;> (try split) <;> (try rfl)

theorem setReply_opcode (m r : Msg) : (setReply m r).opcode = r.opcode := by
  unfold setReply
  cases r.question <;> dsimp <;> (try split) <;> (try rfl)

theorem setReply_ns (m r : Msg) : (setReply m r).ns = m.ns := by
  unfold setReply
  cases r.question <;> dsimp <;> (try split) <;> (try rfl)

theorem setReply_extra (m r : Msg) : (setReply m r).extra = m.extra := by
  unfold setReply
  cases r.question <;> dsimp <;> (try split) <;> (try rfl)

theorem setReply_authoritative (m r : Msg) :
    (setReply m r).authoritative = m.authoritative := by
  unfold setReply
  cases r.question <;> dsimp <;> (try split) <;> (try rfl)

theorem setReply_truncated (m r : Msg) : (setReply m r).truncated = m.truncated := by
  unfold setReply
  cases r.question <;> dsimp <;> (try split) <;> (try rfl)

theorem setReply_recursionAvailable (m r : Msg) :
    (setReply m r).recursionAvailable = m.recursionAvailable := by
  unfold setReply
  cases r.question <;> dsimp <;> (try split) <;> (try rfl)

theorem setReply_question_cons (m r : Msg) (q : Question) (qs : List Question)
    (hq : r.question = q :: qs) : (setReply m r).question = [q] := by
  unfold setReply
  rw [hq]

/-! ### Concrete fixtures used by the witnesses -/

/-- A zone entry as in the repository's example zone data. -/
def exEntry : Record := ⟨"Example.com", "A", 600, "192.0.2.1"⟩

/-- The resource record `addRecord` builds from `exEntry`. -/
def exRR : RR := ⟨"Example.com.", typeA, classINET, 600, .a (some (v4To16 192 0 2 1))⟩

/-- The store built from the single entry `exEntry`. -/
def exStore : Store := buildStore [exEntry]

/-- A question hitting the store after normalization. -/
def qLocal : Question := ⟨"EXAMPLE.COM", typeA, classINET⟩

/-- A question missing from the store. -/
def qMiss : Question := ⟨"nosuch.example.com.", typeA, classINET⟩

/-- An exchange oracle that always fails (models `err != nil`). -/
def fwdFail : Forwarder := fun _ _ => none

/-- A concrete upstream response carrying a name-error rcode and flags that
differ from a freshly stamped reply. -/
def upstreamResp : Msg :=
  { emptyMsg with id := 42, response := true, authoritative := true,
                  recursionAvailable := true, rcode := rcodeNameError,
                  question := [qMiss] }

/-- An exchange oracle that always succeeds with `upstreamResp`. -/
def fwdUpstream : Forwarder := fun _ _ => some upstreamResp

/-- A request message for the present name. -/
def reqLocal : Msg := { emptyMsg with id := 42, recursionDesired := true, question := [qLocal] }

/-- A request message for the absent name. -/
def reqMiss : Msg := { emptyMsg with id := 42, recursionDesired := true, question := [qMiss] }

/-- A third question, placed after the forwarded one in the multi-question
request. -/
def qExtra : Question := ⟨"other.example.com.", typeA, classINET⟩

/-- A request with three questions: a local hit, a forwarded miss, and a
trailing question the loop never reaches. -/
def reqMulti : Msg :=
  { emptyMsg with id := 7, question := [qLocal, qMiss, qExtra] }

/-- A request with two questions: a local hit followed by a miss. -/
def reqTwo : Msg :=
  { emptyMsg with id := 9, question := [qLocal, qMiss] }

/-! ### Claims -/

/-- C1: a query whose normalized (trailing-dot-appended, case-folded) name
is a key of the record store resolves to the authoritative outcome carrying
that key's records; the outcome is identical for any two forwarding oracles
(the Forwarder is never invoked) and holds for every forwarding
configuration; at the handler level the loop continues with exactly those
records appended to the answer section. -/
theorem c1_local_hit_authoritative_no_forward
    (entries : List Record) (cfg : ServerConfig) (fwd fwd' : Forwarder)
    (r m : Msg) (q : Question) (recs : List RR)
    (h : findRecords (buildStore entries) (normalizeName q.name) = some recs) :
    resolve cfg fwd (buildStore entries) r q = .authoritative recs ∧
    resolve cfg fwd (buildStore entries) r q = resolve cfg fwd' (buildStore entries) r q ∧
    handleQuestion cfg fwd (buildStore entries) r m q =
      .cont { m with answer := m.answer ++ recs } := by
  have hne : recs ≠ [] := buildStore_find_ne_nil entries _ recs h
  have hlen : recs.length > 0 := List.length_pos.mpr hne
  refine ⟨?_, ?_, ?_⟩
  · simp [resolve, h, hlen]
  · simp [resolve, h]
  · simp [handleQuestion, h, hlen]

/-- Witness for C1: the concrete store answers `EXAMPLE.COM` locally even
with forwarding enabled and a reachable upstream. -/
theorem c1_witness :
    resolve ⟨true, "9.9.9.9"⟩ fwdUpstream exStore reqLocal qLocal =
      .authoritative [exRR] ∧
    handleQuestion ⟨true, "9.9.9.9"⟩ fwdUpstream exStore reqLocal emptyMsg qLocal =
      .cont { emptyMsg with answer := [exRR] } := by
  have h := c1_local_hit_authoritative_no_forward [exEntry] ⟨true, "9.9.9.9"⟩
    fwdUpstream fwdFail reqLocal emptyMsg qLocal [exRR] (by decide)
  exact ⟨h.1, by simpa [emptyMsg] using h.2.2⟩

/-- C2: with `enable_forwarding=false`, a query whose normalized name is
absent from the store resolves to NXDOMAIN for every configured upstream
address; the handler continues with `SetRcode(r, RcodeNameError)`. -/
theorem c2_forwarding_disabled_nxdomain
    (addr : String) (fwd : Forwarder) (store : Store) (r m : Msg) (q : Question)
    (h : findRecords store (normalizeName q.name) = none) :
    resolve ⟨false, addr⟩ fwd store r q = .negativeAnswer ∧
    handleQuestion ⟨false, addr⟩ fwd store r m q =
      .cont (setRcode m r rcodeNameError) := by
  constructor
  · simp [resolve, h]
  · simp [handleQuestion, h]

/-- Witness for C2: a missing name with forwarding disabled but a nonempty,
reachable upstream still yields the negative outcome. -/
theorem c2_witness :
    resolve ⟨false, "1.1.1.1"⟩ fwdUpstream exStore reqMiss qMiss = .negativeAnswer ∧
    handleQuestion ⟨false, "1.1.1.1"⟩ fwdUpstream exStore reqMiss emptyMsg qMiss =
      .cont (setRcode emptyMsg reqMiss rcodeNameError) :=
  c2_forwarding_disabled_nxdomain "1.1.1.1" fwdUpstream exStore reqMiss emptyMsg qMiss
    (by decide)

/-- C3: with forwarding enabled and an upstream configured, an upstream
exchange error on a query with no local answer resolves to NXDOMAIN: the
handler continues with the negative rcode rather than propagating a
failure. -/
theorem c3_forward_error_degrades_to_nxdomain
    (addr : String) (fwd : Forwarder) (store : Store) (r m : Msg) (q : Question)
    (haddr : addr ≠ "")
    (h : findRecords store (normalizeName q.name) = none)
    (hex : fwd (addr ++ ":53") r = none) :
    resolve ⟨true, addr⟩ fwd store r q = .negativeAnswer ∧
    handleQuestion ⟨true, addr⟩ fwd store r m q =
      .cont (setRcode m r rcodeNameError) := by
  constructor
  · simp [resolve, h, haddr, hex]
  · simp [handleQuestion, h, haddr, hex]

/-- Witness for C3: a failing exchange against `1.1.1.1` degrades the
missing-name query to the negative outcome. -/
theorem c3_witness :
    resolve ⟨true, "1.1.1.1"⟩ fwdFail exStore reqMiss qMiss = .negativeAnswer ∧
    handleQuestion ⟨true, "1.1.1.1"⟩ fwdFail exStore reqMiss emptyMsg qMiss =
      .cont (setRcode emptyMsg reqMiss rcodeNameError) :=
  c3_forward_error_degrades_to_nxdomain "1.1.1.1" fwdFail exStore reqMiss emptyMsg qMiss
    (by decide) (by decide) rfl

/-- C4 counterexample: with a reachable upstream whose response carries the
name-error rcode, the message the handler sends back is not the upstream
response: its rcode has been reset to success by the
`resp.CopyTo(m); m.SetReply(r)` sequence, so the relay is not verbatim. -/
theorem c4_counterexample :
    fwdUpstream ("1.1.1.1" ++ ":53") reqMiss = some upstreamResp ∧
    handleRequest ⟨true, "1.1.1.1"⟩ fwdUpstream exStore reqMiss ≠ upstreamResp ∧
    (handleRequest ⟨true, "1.1.1.1"⟩ fwdUpstream exStore reqMiss).rcode = rcodeSuccess ∧
    upstreamResp.rcode = rcodeNameError := by
  refine ⟨rfl, by decide, by decide, rfl⟩

/-- C4 (amended): on forwarding success the handler sends the upstream
response re-stamped as a reply to the client request: the answer, authority
and extra sections and the AA/TC/RA flags are taken from the upstream
response, while the id and opcode come from the request, the response bit
is set, the response code is reset to success (the upstream rcode is not
preserved), and the question section is replaced by the request's first
question. -/
theorem c4_forward_success_restamped_relay
    (addr : String) (fwd : Forwarder) (store : Store) (r : Msg)
    (q : Question) (qs : List Question) (resp : Msg)
    (haddr : addr ≠ "")
    (hq : r.question = q :: qs)
    (h : findRecords store (normalizeName q.name) = none)
    (hex : fwd (addr ++ ":53") r = some resp) :
    handleRequest ⟨true, addr⟩ fwd store r = setReply resp r ∧
    (handleRequest ⟨true, addr⟩ fwd store r).answer = resp.answer ∧
    (handleRequest ⟨true, addr⟩ fwd store r).ns = resp.ns ∧
    (handleRequest ⟨true, addr⟩ fwd store r).extra = resp.extra ∧
    (handleRequest ⟨true, addr⟩ fwd store r).authoritative = resp.authoritative ∧
    (handleRequest ⟨true, addr⟩ fwd store r).truncated = resp.truncated ∧
    (handleRequest ⟨true, addr⟩ fwd store r).recursionAvailable = resp.recursionAvailable ∧
    (handleRequest ⟨true, addr⟩ fwd store r).rcode = rcodeSuccess ∧
    (handleRequest ⟨true, addr⟩ fwd store r).id = r.id ∧
    (handleRequest ⟨true, addr⟩ fwd store r).response = true ∧
    (handleRequest ⟨true, addr⟩ fwd store r).question = [q] := by
  have hmain : handleRequest ⟨true, addr⟩ fwd store r = setReply resp r := by
    unfold handleRequest
    rw [hq]
    simp only [runQuestions, handleQuestion, h, haddr, hex]
    simp [haddr]
  refine ⟨hmain, ?_, ?_, ?_, ?_, ?_, ?_, ?_, ?_, ?_, ?_⟩ <;> rw [hmain]
  · exact setReply_answer resp r
  · exact setReply_ns resp r
  · exact setReply_extra resp r
  · exact setReply_authoritative resp r
  · exact setReply_truncated resp r
  · exact setReply_recursionAvailable resp r
  · exact setReply_rcode resp r
  · exact setReply_id resp r
  · exact setReply_response resp r
  · exact setReply_question_cons resp r q qs hq

/-- Witness for C4 (amended) at the concrete missing-name request and
upstream response. -/
theorem c4_witness :
    handleRequest ⟨true, "1.1.1.1"⟩ fwdUpstream exStore reqMiss =
      setReply upstreamResp reqMiss ∧
    (handleRequest ⟨true, "1.1.1.1"⟩ fwdUpstream exStore reqMiss).answer =
      upstreamResp.answer ∧
    (handleRequest ⟨true, "1.1.1.1"⟩ fwdUpstream exStore reqMiss).rcode = rcodeSuccess := by
  have h := c4_forward_success_restamped_relay "1.1.1.1" fwdUpstream exStore reqMiss
    qMiss [] upstreamResp (by decide) rfl (by decide) rfl
  exact ⟨h.1, h.2.1, h.2.2.2.2.2.2.2.1⟩

/-- C5: in a message with two or more questions, once the loop reaches a
question with no local answer whose upstream forward succeeds, the
re-stamped forwarded response is sent immediately: the loop result is the
same as if the question list ended there, so the questions after the
forwarded one are never processed and contribute nothing, and the handler
returns that forwarded response. -/
theorem c5_forward_success_stops_loop
    (cfg : ServerConfig) (fwd : Forwarder) (store : Store) (r m1 : Msg)
    (qs1 qs2 : List Question) (q : Question) (resp : Msg)
    (hrun : runQuestions cfg fwd store r qs1 (setReply emptyMsg r) = .cont m1)
    (h : findRecords store (normalizeName q.name) = none)
    (hen : cfg.enableForwarding = true)
    (haddr : cfg.forwarder ≠ "")
    (hex : fwd (cfg.forwarder ++ ":53") r = some resp) :
    runQuestions cfg fwd store r (qs1 ++ q :: qs2) (setReply emptyMsg r) =
      .sent (setReply resp r) ∧
    runQuestions cfg fwd store r (qs1 ++ q :: qs2) (setReply emptyMsg r) =
      runQuestions cfg fwd store r (qs1 ++ [q]) (setReply emptyMsg r) ∧
    (r.question = qs1 ++ q :: qs2 →
      handleRequest cfg fwd store r = setReply resp r) := by
  have hstep : ∀ m : Msg, handleQuestion cfg fwd store r m q = .sent (setReply resp r) := by
    intro m
    simp [handleQuestion, h, hen, haddr, hex]
  have hfull : runQuestions cfg fwd store r (qs1 ++ q :: qs2) (setReply emptyMsg r) =
      .sent (setReply resp r) := by
    rw [runQuestions_append, hrun]
    simp only [runQuestions, hstep]
  have hshort : runQuestions cfg fwd store r (qs1 ++ [q]) (setReply emptyMsg r) =
      .sent (setReply resp r) := by
    rw [runQuestions_append, hrun]
    simp only [runQuestions, hstep]
  refine ⟨hfull, by rw [hfull, hshort], ?_⟩
  intro hq
  unfold handleRequest
  rw [hq, hfull]

/-- Witness for C5: with three questions where the second one forwards, the
handler returns the re-stamped upstream response and the loop result
matches the two-question truncation. -/
theorem c5_witness :
    runQuestions ⟨true, "1.1.1.1"⟩ fwdUpstream exStore reqMulti
        [qLocal, qMiss, qExtra] (setReply emptyMsg reqMulti) =
      .sent (setReply upstreamResp reqMulti) ∧
    handleRequest ⟨true, "1.1.1.1"⟩ fwdUpstream exStore reqMulti =
      setReply upstreamResp reqMulti := by
  have h := c5_forward_success_stops_loop ⟨true, "1.1.1.1"⟩ fwdUpstream exStore reqMulti
    { setReply emptyMsg reqMulti with answer := [exRR] } [qLocal] [qExtra] qMiss
    upstreamResp (by decide) (by decide) rfl (by decide) rfl
  exact ⟨h.1, h.2.2 rfl⟩

/-- C6: lookup is case-insensitive: any entry loaded with owner name
`"Example.com"` (of a supported type, so a record is materialized) is found
under the queries `"example.com"`, `"EXAMPLE.COM."` and `"example.com."`:
the store key is case-folded at insertion and the query name is case-folded
identically before lookup, so all three resolve authoritatively to that
record. -/
theorem c6_case_insensitive_lookup
    (rec : Record) (rr : RR) (cfg : ServerConfig) (fwd : Forwarder) (r : Msg)
    (qt qc : Nat)
    (hname : rec.name = "Example.com")
    (hmk : mkRR rec = some rr) :
    findRecords (buildStore [rec]) (normalizeName "example.com") = some [rr] ∧
    findRecords (buildStore [rec]) (normalizeName "EXAMPLE.COM.") = some [rr] ∧
    findRecords (buildStore [rec]) (normalizeName "example.com.") = some [rr] ∧
    resolve cfg fwd (buildStore [rec]) r ⟨"example.com", qt, qc⟩ = .authoritative [rr] ∧
    resolve cfg fwd (buildStore [rec]) r ⟨"EXAMPLE.COM.", qt, qc⟩ = .authoritative [rr] ∧
    resolve cfg fwd (buildStore [rec]) r ⟨"example.com.", qt, qc⟩ = .authoritative [rr] := by
  have hkey : strToLower (ensureTrailingDot "Example.com") = "example.com." := by decide
  have hstore : buildStore [rec] = [("example.com.", [rr])] := by
    simp [buildStore, addRecord, hmk, hname, appendRecord, hkey]
  have h1 : normalizeName "example.com" = "example.com." := by decide
  have h2 : normalizeName "EXAMPLE.COM." = "example.com." := by decide
  have h3 : normalizeName "example.com." = "example.com." := by decide
  rw [hstore]
  refine ⟨?_, ?_, ?_, ?_, ?_, ?_⟩ <;>
    simp [resolve, findRecords, h1, h2, h3]

/-- Witness for C6 at the concrete `A` entry for `Example.com`. -/
theorem c6_witness :
    findRecords (buildStore [exEntry]) (normalizeName "EXAMPLE.COM.") = some [exRR] ∧
    resolve ⟨false, ""⟩ fwdFail (buildStore [exEntry]) reqLocal
      ⟨"example.com", typeA, classINET⟩ = .authoritative [exRR] := by
  have h := c6_case_insensitive_lookup exEntry exRR ⟨false, ""⟩ fwdFail reqLocal
    typeA classINET rfl (by decide)
  exact ⟨h.2.1, h.2.2.2.1⟩

/-- C8: resolution ignores the requested query type and class entirely:
processing a question yields identical results for any two query
types/classes, and a stored owner name resolves to all records stored
under it regardless of the requested type (no filtering of the returned
sequence occurs). -/
theorem c8_query_type_ignored
    (entries : List Record) (cfg : ServerConfig) (fwd : Forwarder) (r m : Msg)
    (n : String) (qt qt' qc qc' : Nat) (recs : List RR)
    (h : findRecords (buildStore entries) (normalizeName n) = some recs) :
    handleQuestion cfg fwd (buildStore entries) r m ⟨n, qt, qc⟩ =
      handleQuestion cfg fwd (buildStore entries) r m ⟨n, qt', qc'⟩ ∧
    resolve cfg fwd (buildStore entries) r ⟨n, qt, qc⟩ = .authoritative recs ∧
    resolve cfg fwd (buildStore entries) r ⟨n, qt', qc'⟩ = .authoritative recs := by
  have hne : recs ≠ [] := buildStore_find_ne_nil entries _ recs h
  have hlen : recs.length > 0 := List.length_pos.mpr hne
  exact ⟨rfl, by simp [resolve, h, hlen], by simp [resolve, h, hlen]⟩

/-- Witness for C8: a type-AAAA query against a name holding only an `A`
record still receives the `A` record. -/
theorem c8_witness :
    resolve ⟨true, "1.1.1.1"⟩ fwdUpstream (buildStore [exEntry]) reqLocal
      ⟨"example.com", typeAAAA, classINET⟩ = .authoritative [exRR] ∧
    resolve ⟨true, "1.1.1.1"⟩ fwdUpstream (buildStore [exEntry]) reqLocal
      ⟨"example.com", typeA, classINET⟩ = .authoritative [exRR] := by
  have h := c8_query_type_ignored [exEntry] ⟨true, "1.1.1.1"⟩ fwdUpstream reqLocal
    emptyMsg "example.com" typeAAAA typeA classINET classINET [exRR] (by decide)
  exact ⟨h.2.1, h.2.2⟩

/-- C7 counterexample: with the standard 4-field header, a data row with
three fields is not skipped: the CSV read enforces the header's field
count, so the whole load fails with the field-count error instead of
producing a store. -/
theorem c7_counterexample :
    loadZoneDataCSV
        [["name", "type", "ttl", "data"], ["x.example.com", "A", "600"]] =
      .error "wrong number of fields" := by
  rfl

/-- C7 (amended): with a 4-field header row, a data row whose field count
differs from 4 makes the whole load fail with the field-count error (it is
not skipped); a 4-field data row whose TTL does not parse as a nonnegative
32-bit integer is skipped without failing the load (removing it changes
nothing); and a file with zero or one row (header only) loads as a valid
empty zone with no error. -/
theorem c7_csv_field_count_fatal_ttl_skipped
    (header bad : List String) (pre post : List (List String))
    (rows : List (List String))
    (hheader : header.length = 4)
    (hbadlen : bad.length ≠ 4) :
    loadZoneDataCSV (header :: (pre ++ bad :: post)) =
      .error "wrong number of fields" ∧
    (∀ name rtype ttlStr data,
      parseTTL ttlStr = none →
      ((pre ++ post).all fun row => row.length = 4) = true →
      loadZoneDataCSV (header :: (pre ++ [name, rtype, ttlStr, data] :: post)) =
        loadZoneDataCSV (header :: (pre ++ post))) ∧
    (rows.length ≤ 1 → loadZoneDataCSV rows = .ok ([] : Store)) := by
  refine ⟨?_, ?_, ?_⟩
  · have hallf : ((pre ++ bad :: post).all fun row => row.length = header.length) = false := by
      have hmem : bad ∈ pre ++ bad :: post :=
        List.mem_append_right _ (List.mem_cons_self _ _)
      rw [Bool.eq_false_iff]
      intro hall
      have hb := List.all_eq_true.mp hall bad hmem
      simp only [hheader, decide_eq_true_eq] at hb
      exact hbadlen hb
    simp [loadZoneDataCSV, readAllCSV, hallf]
  · intro name rtype ttlStr data httl hall
    have hrow : rowToRecord [name, rtype, ttlStr, data] = none := by
      simp [rowToRecord, httl]
    have hfold : ∀ st : Store,
        List.foldl csvStep st (pre ++ [name, rtype, ttlStr, data] :: post) =
          List.foldl csvStep st (pre ++ post) := by
      intro st
      simp [List.foldl_append, csvStep, hrow]
    have hallpp := hall
    simp only [List.all_append, Bool.and_eq_true] at hallpp
    have hall1 : ((pre ++ [name, rtype, ttlStr, data] :: post).all
        fun row => row.length = header.length) = true := by
      rw [hheader]
      simp only [List.all_append, List.all_cons, Bool.and_eq_true]
      exact ⟨hallpp.1, by simp, hallpp.2⟩
    have hall2 : ((pre ++ post).all fun row => row.length = header.length) = true := by
      rw [hheader]
      exact hall
    by_cases hnil : pre = [] ∧ post = []
    · obtain ⟨hpre, hpost⟩ := hnil
      subst hpre
      subst hpost
      simp [loadZoneDataCSV, readAllCSV, hheader, csvStep, hrow]
    · have hpos : 0 < pre.length + post.length := by
        rcases not_and_or.mp hnil with hp | hp
        · have := List.length_pos.mpr hp
          omega
        · have := List.length_pos.mpr hp
          omega
      have hra1 : readAllCSV (header :: (pre ++ [name, rtype, ttlStr, data] :: post)) =
          .ok (header :: (pre ++ [name, rtype, ttlStr, data] :: post)) := by
        simp only [readAllCSV, hall1, if_true]
      have hra2 : readAllCSV (header :: (pre ++ post)) =
          .ok (header :: (pre ++ post)) := by
        simp only [readAllCSV, hall2, if_true]
      have hlenL : ¬ (header :: (pre ++ [name, rtype, ttlStr, data] :: post)).length ≤ 1 := by
        simp only [List.length_cons, List.length_append]
        omega
      have hlenR : ¬ (header :: (pre ++ post)).length ≤ 1 := by
        simp only [List.length_cons, List.length_append]
        omega
      simp only [loadZoneDataCSV, hra1, hra2]
      rw [if_neg hlenL, if_neg hlenR]
      simp only [List.drop_one, List.tail_cons]
      rw [hfold]
  · intro hle
    rcases rows with _ | ⟨first, _ | ⟨second, rest⟩⟩
    · rfl
    · rfl
    · simp at hle

/-- Witness for C7 (amended): a 3-field row aborts the load with the
field-count error, a bad-TTL 4-field row is skipped, and a header-only
file is an empty zone. -/
theorem c7_witness :
    loadZoneDataCSV
        [["name", "type", "ttl", "data"], ["x.example.com", "A", "600"],
         ["a.example.com", "A", "600", "192.0.2.1"]] =
      .error "wrong number of fields" ∧
    loadZoneDataCSV
        [["name", "type", "ttl", "data"], ["b.example.com", "A", "-5", "192.0.2.9"],
         ["a.example.com", "A", "600", "192.0.2.1"]] =
      loadZoneDataCSV
        [["name", "type", "ttl", "data"], ["a.example.com", "A", "600", "192.0.2.1"]] ∧
    loadZoneDataCSV [["name", "type", "ttl", "data"]] = .ok ([] : Store) := by
  have h := c7_csv_field_count_fatal_ttl_skipped ["name", "type", "ttl", "data"]
    ["x.example.com", "A", "600"] [] [["a.example.com", "A", "600", "192.0.2.1"]]
    [["name", "type", "ttl", "data"]] (by decide) (by decide)
  exact ⟨h.1, h.2.1 "b.example.com" "A" "-5" "192.0.2.9" (by decide) (by decide),
    h.2.2 (by decide)⟩

/-- C9 counterexample: the `A` entry data `"::ffff:192.0.2.1"` is not a
valid IPv4 literal (its dotted-quad parse fails), yet the program does not
store an empty/invalid address marker: `net.ParseIP` parses it as an
IPv4-mapped IPv6 literal to the very same bytes as `"192.0.2.1"`, and the
record is stored carrying that fully valid address. -/
theorem c9_counterexample :
    parseIPv4Fields "::ffff:192.0.2.1".data = none ∧
    parseIP "::ffff:192.0.2.1" = some (v4To16 192 0 2 1) ∧
    parseIP "::ffff:192.0.2.1" = parseIP "192.0.2.1" ∧
    findRecords (buildStore [⟨"v6.example.com", "A", 60, "::ffff:192.0.2.1"⟩])
        (normalizeName "v6.example.com") =
      some [⟨"v6.example.com.", typeA, classINET, 60, .a (some (v4To16 192 0 2 1))⟩] := by
  refine ⟨by decide, by decide, by decide, by decide⟩

/-- C9 (amended): an `A` entry is never rejected and raises no error
whatever its data field holds: `addRecord` (a total function) always
materializes a record under the normalized owner key carrying the
`net.ParseIP` result — the `nil`/empty-address marker exactly when the data
parses neither as an IPv4 nor as an IPv6 literal, and the parsed non-empty
address otherwise (for IPv6 literals included). -/
theorem c9_a_record_stored_with_parse_result
    (rec : Record) (st : Store)
    (htype : rec.«type» = "A") :
    mkRR rec =
      some ⟨ensureTrailingDot rec.name, typeA, classINET, rec.ttl, .a (parseIP rec.data)⟩ ∧
    addRecord st rec =
      appendRecord st (strToLower (ensureTrailingDot rec.name))
        ⟨ensureTrailingDot rec.name, typeA, classINET, rec.ttl, .a (parseIP rec.data)⟩ ∧
    findRecords (buildStore [rec]) (normalizeName rec.name) =
      some [⟨ensureTrailingDot rec.name, typeA, classINET, rec.ttl, .a (parseIP rec.data)⟩] ∧
    (parseIP rec.data = none →
      mkRR rec = some ⟨ensureTrailingDot rec.name, typeA, classINET, rec.ttl, .a none⟩) := by
  have hmk : mkRR rec =
      some ⟨ensureTrailingDot rec.name, typeA, classINET, rec.ttl, .a (parseIP rec.data)⟩ := by
    simp [mkRR, htype]
  refine ⟨hmk, ?_, ?_, ?_⟩
  · simp [addRecord, hmk]
  · simp [buildStore, addRecord, hmk, appendRecord, findRecords, normalizeName]
  · intro hnone
    rw [hmk, hnone]

/-- Witness for C9 (amended): the literal `"not-an-ip"` is unparsable for
`net.ParseIP`, and the entry is stored with the empty-address marker. -/
theorem c9_witness :
    parseIP "not-an-ip" = none ∧
    findRecords (buildStore [⟨"bad.example.com", "A", 60, "not-an-ip"⟩])
        (normalizeName "bad.example.com") =
      some [⟨"bad.example.com.", typeA, classINET, 60, .a none⟩] := by
  have h := c9_a_record_stored_with_parse_result ⟨"bad.example.com", "A", 60, "not-an-ip"⟩
    [] rfl
  have h3 := h.2.2.1
  have hn : parseIP "not-an-ip" = none := by decide
  have he : ensureTrailingDot "bad.example.com" = "bad.example.com." := by decide
  dsimp only at h3
  rw [hn, he] at h3
  exact ⟨hn, h3⟩

/-- C10: in a multi-question message, when the last question resolves to
NXDOMAIN (no local answer and no successful forward) after the earlier
questions completed the loop, the final reply is
`SetRcode(r, RcodeNameError)` applied to the message built so far: its
response code is NXDOMAIN while the answer records appended by earlier
authoritative questions are kept, so a single reply can carry both answer
records and the NXDOMAIN code. -/
theorem c10_late_nxdomain_keeps_answers
    (cfg : ServerConfig) (fwd : Forwarder) (store : Store) (r m1 : Msg)
    (qs1 : List Question) (q : Question)
    (hq : r.question = qs1 ++ [q])
    (hrun : runQuestions cfg fwd store r qs1 (setReply emptyMsg r) = .cont m1)
    (h : findRecords store (normalizeName q.name) = none)
    (hfw : cfg.enableForwarding ∧ cfg.forwarder ≠ "" →
      fwd (cfg.forwarder ++ ":53") r = none) :
    handleRequest cfg fwd store r = setRcode m1 r rcodeNameError ∧
    (handleRequest cfg fwd store r).rcode = rcodeNameError ∧
    (handleRequest cfg fwd store r).answer = m1.answer := by
  have hstep : handleQuestion cfg fwd store r m1 q =
      .cont (setRcode m1 r rcodeNameError) := by
    simp only [handleQuestion, h]
    by_cases hg : cfg.enableForwarding = true ∧ cfg.forwarder ≠ ""
    · rw [if_pos hg, hfw hg]
    · rw [if_neg hg]
  have hmain : handleRequest cfg fwd store r = setRcode m1 r rcodeNameError := by
    unfold handleRequest
    rw [hq, runQuestions_append, hrun]
    simp only [runQuestions, hstep]
  refine ⟨hmain, ?_, ?_⟩ <;> rw [hmain]
  · exact setRcode_rcode m1 r rcodeNameError
  · exact setRcode_answer m1 r rcodeNameError

/-- Witness for C10: a two-question request whose first question is
answered locally and whose second misses with forwarding failing: the
single reply carries the local answer record together with the NXDOMAIN
response code. -/
theorem c10_witness :
    (handleRequest ⟨true, "1.1.1.1"⟩ fwdFail exStore reqTwo).rcode = rcodeNameError ∧
    (handleRequest ⟨true, "1.1.1.1"⟩ fwdFail exStore reqTwo).answer = [exRR] := by
  have h := c10_late_nxdomain_keeps_answers ⟨true, "1.1.1.1"⟩ fwdFail exStore reqTwo
    { setReply emptyMsg reqTwo with answer := [exRR] } [qLocal] qMiss rfl
    (by decide) (by decide) (fun _ => rfl)
  exact ⟨h.2.1, by rw [h.2.2]⟩

end DnsGo
